import Mathlib

/-!
Verification development for the batch job processing engine of the
script-to-images repository: a shallow embedding of the Job Manager
(`backend/services/jobManager.js`), the `Job` mongoose model
(`backend/models/Job.js`), the image-service dispatch
(`backend/services/imageService.js`), and the batch routes
(`backend/routes/scripts.js`), together with theorems about the
state-machine, progress-count, idempotence and crash-recovery behavior.
All definitions are transcribed from the JavaScript source; doc comments
point at the source location each definition embeds.
-/

namespace BatchEngine

/-- Job-level status enum of the `Job` schema
(`backend/models/Job.js`: `enum: ['pending','processing','completed','failed','paused']`). -/
inductive JobStatus
  | pending
  | processing
  | completed
  | failed
  | paused
deriving DecidableEq, Repr

/-- Per-item status enum of the `chunksToProcess` subdocument
(`backend/models/Job.js`: `enum: ['pending','processing','completed','failed']`). -/
inductive ItemStatus
  | pending
  | processing
  | completed
  | failed
deriving DecidableEq, Repr

/-- One entry of `job.chunksToProcess` (`backend/models/Job.js` lines 28-37).
Timestamps are modelled as abstract `Nat` clock values. -/
structure JobItem where
  chunkId : String
  status : ItemStatus
  error : Option String := none
  processedAt : Option Nat := none
deriving DecidableEq, Repr

/-- The `progress` subdocument of the Job schema (`backend/models/Job.js` lines 19-23). -/
structure Progress where
  totalChunks : Nat
  processedChunks : Nat
  failedChunks : Nat
deriving DecidableEq, Repr

/-- The persisted `config` subdocument of a Job.  Each field is `Option`al:
`none` models a path that is absent on the stored document (reading it in JS
yields `undefined`). -/
structure JobConfig where
  color : Option String := none
  quality : Option String := none
  style : Option String := none
  provider : Option String := none
deriving DecidableEq, Repr

/-- The mongoose cast applied when `createBatchImageJob` assigns
`config: { color, quality, style, provider }` to a new `Job` document.
The Job schema (`backend/models/Job.js` lines 24-27) declares only
`config.color` and `config.quality`; mongoose runs in strict mode by
default, so the undeclared paths `config.style` and `config.provider`
are stripped at cast time and are neither held on the document nor
persisted — reading `job.config.style` / `job.config.provider` yields
`undefined` (`none`). -/
def castJobConfig (color quality _style _provider : String) : JobConfig :=
  { color := some color, quality := some quality, style := none, provider := none }

/-- A persisted `Job` document (`backend/models/Job.js`).  `id` models the
mongo `_id`, `createdAt` the creation timestamp. -/
structure Job where
  id : Nat
  scriptId : Nat
  jobType : String
  status : JobStatus
  progress : Progress
  config : JobConfig
  chunksToProcess : List JobItem
  createdAt : Nat := 0
  completedAt : Option Nat := none
  error : Option String := none
deriving DecidableEq, Repr

/-- A chunk of a `Script` document (`backend/models/Script.js`).  `none`
models a `null`/absent field; JS truthiness `if (chunk.imageUrl)` is
modelled by `isSome` (generated image URLs are non-empty strings). -/
structure Chunk where
  id : String
  content : String
  imageUrl : Option String := none
  secondaryImageUrl : Option String := none
  sceneDescription : Option String := none
  symbolDescription : Option String := none
  imageProvider : Option String := none
  imageGeneratedAt : Option Nat := none
deriving DecidableEq, Repr

/-- A `Script` document: the parent content object whose chunks are illustrated. -/
structure Script where
  id : Nat
  chunks : List Chunk
deriving DecidableEq, Repr

/-- The persistent store visible to the Job Manager: the `scripts` and
`jobs` collections, plus the id counter used for fresh job `_id`s. -/
structure Store where
  scripts : List Script
  jobs : List Job
  nextJobId : Nat := 0
deriving DecidableEq, Repr

/-- `JobManager.resumeIncompleteJobs` (`backend/services/jobManager.js`
lines 28-45): every job found with `status ∈ {pending, processing}` has its
job-level `status` set to `'pending'` and is saved.  Nothing else on the
job — in particular no `chunksToProcess` entry — is touched. -/
def resumeIncompleteJobs (jobs : List Job) : List Job :=
  jobs.map fun j =>
    if j.status = JobStatus.pending ∨ j.status = JobStatus.processing then
      { j with status := JobStatus.pending }
    else j

/-- The per-pass item selection of `processBatchImageGeneration`
(`backend/services/jobManager.js` lines 108-111):
`job.chunksToProcess.filter(chunk => chunk.status === 'pending' || chunk.status === 'failed')`,
modelled as the list of selected positions into `chunksToProcess`. -/
def selectedIdxs (job : Job) : List Nat :=
  (List.range job.chunksToProcess.length).filter fun i =>
    match job.chunksToProcess.get? i with
    | some it => it.status == ItemStatus.pending || it.status == ItemStatus.failed
    | none => false

/-- Result value of `ImageService.generateImage`
(`backend/services/imageService.js`): the standard path returns a plain
image-URL string; the NanoBanana-with-infographic path returns an object
`{ mainImageUrl, secondaryImageUrl, sceneDescription, symbolDescription }`. -/
inductive GenResult
  | single (imageUrl : String)
  | dual (mainImageUrl secondaryImageUrl sceneDescription symbolDescription : String)
deriving DecidableEq, Repr

/-- The external collaborators invoked by `ImageService.generateImage`:
OpenAI text analysis, the two NanoBanana generation entry points, and the
two providers' standard `generateImage` methods.  Each call either
returns a string result or throws (`Except.error` carries the JS error
message). -/
structure ProviderEnv where
  analyzeSceneDescription : String → Except String String
  analyzeSymbolsAndObjects : String → Except String String
  generateImageWithScene : String → String → String → String → Except String String
  generateSymbolImage : String → String → String → String → Except String String
  openaiGenerate : String → String → String → String → Except String String
  nanobananaGenerate : String → String → String → String → Except String String

/-- Record of one invocation of `ImageService.generateImage`: the provider
key dispatched on, the chunk content, and the style argument. -/
structure GenCall where
  provider : String
  content : String
  style : String
deriving DecidableEq, Repr

/-- `ImageService.generateImage(chunkContent, provider, color, quality, style)`
(`backend/services/imageService.js`): validates the provider key against the
`providers` map `{openai, nanobanana}`, takes the two-stage scene/symbol
path when `provider === 'nanobanana' && style === 'infographic'` (two
sequential OpenAI analyses, then the two NanoBanana generations, returning
the four-field object), and otherwise the provider's standard single-image
path.  Each `await`ed collaborator call may throw; a throw at any point
propagates out of the whole call. -/
def generateImage (env : ProviderEnv) (chunkContent provider color quality style : String) :
    Except String GenResult :=
  if provider ≠ "openai" ∧ provider ≠ "nanobanana" then
    Except.error ("Invalid image provider: " ++ provider)
  else if provider = "nanobanana" ∧ style = "infographic" then
    match env.analyzeSceneDescription chunkContent with
    | Except.error e => Except.error e
    | Except.ok sceneDescription =>
      match env.analyzeSymbolsAndObjects chunkContent with
      | Except.error e => Except.error e
      | Except.ok symbolDescription =>
        match env.generateImageWithScene sceneDescription color quality style with
        | Except.error e => Except.error e
        | Except.ok mainImageUrl =>
          match env.generateSymbolImage symbolDescription color quality style with
          | Except.error e => Except.error e
          | Except.ok secondaryImageUrl =>
            Except.ok (GenResult.dual mainImageUrl secondaryImageUrl
              sceneDescription symbolDescription)
  else
    match (if provider = "openai" then env.openaiGenerate else env.nanobananaGenerate)
        chunkContent color quality style with
    | Except.error e => Except.error e
    | Except.ok imageUrl => Except.ok (GenResult.single imageUrl)

/-- The mongoose cast of the value stored by
`Script.updateOne(..., { $set: { 'chunks.$.imageUrl': imageUrl } })`
(`backend/services/jobManager.js` lines 148-157).  The schema types
`chunks.imageUrl` as `String`; a plain string casts to itself, while the
four-field object returned by the dual path has no custom `toString` and
raises a mongoose `CastError`, which rejects the `updateOne` promise. -/
def castImageUrl : GenResult → Except String String
  | GenResult.single u => Except.ok u
  | GenResult.dual _ _ _ _ => Except.error "Cast to string failed"

/-- The positional-operator update of
`Script.updateOne({_id, 'chunks.id': chunkId}, {$set: {'chunks.$.imageUrl', 'chunks.$.imageProvider', 'chunks.$.imageGeneratedAt'}})`:
the first chunk whose `id` matches receives the three fields; every other
chunk and every other chunk field is untouched. -/
def updateFirstChunk (chunkId url provider : String) (now : Nat) :
    List Chunk → List Chunk
  | [] => []
  | c :: cs =>
    if c.id = chunkId then
      { c with imageUrl := some url, imageProvider := some provider,
               imageGeneratedAt := some now } :: cs
    else c :: updateFirstChunk chunkId url provider now cs

/-- Apply the chunk-asset write-back to the script with the matching `_id`
in the scripts collection. -/
def updateChunkAsset (scripts : List Script) (scriptId : Nat)
    (chunkId url provider : String) (now : Nat) : List Script :=
  scripts.map fun s =>
    if s.id = scriptId then
      { s with chunks := updateFirstChunk chunkId url provider now s.chunks }
    else s

/-- In-place mutation of the `i`-th element of a list (the JS loop mutates
the `chunkItem` subdocument it holds a reference to). -/
def listModify (f : α → α) : Nat → List α → List α
  | _, [] => []
  | 0, a :: as => f a :: as
  | n + 1, a :: as => a :: listModify f n as

/-- `chunkItem.status = 'processing'` followed by `job.save()`
(`backend/services/jobManager.js` lines 134-136): no progress counter moves. -/
def markItemProcessing (job : Job) (i : Nat) : Job :=
  { job with chunksToProcess :=
      listModify (fun it => { it with status := ItemStatus.processing }) i job.chunksToProcess }

/-- `chunkItem.status = 'completed'; chunkItem.processedAt = new Date();
job.progress.processedChunks++`
(`backend/services/jobManager.js` lines 125-127 and 159-162). -/
def markItemCompleted (job : Job) (i : Nat) (now : Nat) : Job :=
  { job with
      chunksToProcess :=
        listModify (fun it => { it with status := ItemStatus.completed, processedAt := some now })
          i job.chunksToProcess,
      progress := { job.progress with processedChunks := job.progress.processedChunks + 1 } }

/-- `chunkItem.status = 'failed'; chunkItem.error = error.message;
job.progress.failedChunks++` (`backend/services/jobManager.js` lines 172-175). -/
def markItemFailed (job : Job) (i : Nat) (msg : String) : Job :=
  { job with
      chunksToProcess :=
        listModify (fun it => { it with status := ItemStatus.failed, error := some msg })
          i job.chunksToProcess,
      progress := { job.progress with failedChunks := job.progress.failedChunks + 1 } }

/-- Running state of one pass of `processBatchImageGeneration`: the job
being mutated, the scripts collection, the sequence of job states
persisted so far (each `job.save()` in source order), and the
`ImageService.generateImage` invocations made so far. -/
structure PassState where
  job : Job
  scripts : List Script
  snaps : List Job
  calls : List GenCall
deriving Repr

/-- The loop body of `processBatchImageGeneration` for the selected item at
position `i` (`backend/services/jobManager.js` lines 115-180), with the
`script` document read once at pass start as `snapshot`:
find the chunk in the snapshot (missing → thrown, caught, item failed);
skip-guard on `scriptChunk.imageUrl` (item completed, no provider call);
otherwise mark processing and save, call `ImageService.generateImage` with
`job.config.provider || 'openai'` and `job.config.style || 'infographic'`,
write the result back via `Script.udpateOne`, and mark the item completed —
any thrown error (provider failure or write-back cast failure) is caught
and the item marked failed.  The job is saved after the item either way. -/
def processChunkItem (env : ProviderEnv) (snapshot : Script) (now : Nat)
    (st : PassState) (i : Nat) : PassState :=
  match st.job.chunksToProcess.get? i with
  | none => st
  | some chunkItem =>
    match snapshot.chunks.find? (fun c => c.id == chunkItem.chunkId) with
    | none =>
      let job' := markItemFailed st.job i ("Chunk " ++ chunkItem.chunkId ++ " not found in script")
      { st with job := job', snaps := st.snaps ++ [job'] }
    | some scriptChunk =>
      if scriptChunk.imageUrl.isSome then
        let job' := markItemCompleted st.job i now
        { st with job := job', snaps := st.snaps ++ [job'] }
      else
        let job1 := markItemProcessing st.job i
        let providerKey := st.job.config.provider.getD "openai"
        let styleKey := st.job.config.style.getD "infographic"
        let call : GenCall := { provider := providerKey, content := scriptChunk.content, style := styleKey }
        let genOutcome :=
          match generateImage env scriptChunk.content providerKey
              (st.job.config.color.getD "white") (st.job.config.quality.getD "high") styleKey with
          | Except.error msg => Except.error msg
          | Except.ok res => castImageUrl res
        match genOutcome with
        | Except.error msg =>
          let job2 := markItemFailed job1 i msg
          { job := job2, scripts := st.scripts,
            snaps := st.snaps ++ [job1, job2], calls := st.calls ++ [call] }
        | Except.ok url =>
          let scripts' := updateChunkAsset st.scripts st.job.scriptId chunkItem.chunkId url providerKey now
          let job2 := markItemCompleted job1 i now
          { job := job2, scripts := scripts',
            snaps := st.snaps ++ [job1, job2], calls := st.calls ++ [call] }

/-- `JobManager.processBatchImageGeneration(job)`
(`backend/services/jobManager.js` lines 102-181): load the script (missing
→ thrown `'Script not found'`, which escapes to `processJob`), select the
items with status `pending` or `failed`, and run the loop body over them in
order. -/
def processBatchImageGeneration (env : ProviderEnv) (now : Nat)
    (scripts : List Script) (job : Job) : Except String PassState :=
  match scripts.find? (fun s => s.id == job.scriptId) with
  | none => Except.error "Script not found"
  | some snapshot =>
    Except.ok ((selectedIdxs job).foldl (processChunkItem env snapshot now)
      { job := job, scripts := scripts, snaps := [], calls := [] })

/-- `JobManager.processJob(job)` (`backend/services/jobManager.js` lines
68-99): set `status = 'processing'` and save; run the batch pass when
`job.type === 'batch_image_generation'`; on normal return set
`status = 'completed'` with `completedAt` and save; if the pass threw, set
`status = 'failed'` with the error message and save. -/
def processJob (env : ProviderEnv) (now : Nat) (scripts : List Script) (job : Job) : PassState :=
  let job1 := { job with status := JobStatus.processing }
  if job1.jobType = "batch_image_generation" then
    match processBatchImageGeneration env now scripts job1 with
    | Except.ok ps =>
      let fin := { ps.job with status := JobStatus.completed, completedAt := some now }
      { job := fin, scripts := ps.scripts, snaps := job1 :: ps.snaps ++ [fin], calls := ps.calls }
    | Except.error msg =>
      let fin := { job1 with status := JobStatus.failed, error := some msg }
      { job := fin, scripts := scripts, snaps := [job1, fin], calls := [] }
  else
    let fin := { job1 with status := JobStatus.completed, completedAt := some now }
    { job := fin, scripts := scripts, snaps := [job1, fin], calls := [] }

/-- Creation-time failures of `JobManager.createBatchImageJob`
(`backend/services/jobManager.js` lines 184-206): `throw new Error('Script
not found')` and `throw new Error('All chunks already have images')`. -/
inductive CreateError
  | scriptNotFound
  | allChunksHaveImages
deriving DecidableEq, Repr

/-- The predicate of the existing-job lookup
`Job.findOne({ scriptId, type: 'batch_image_generation', status: { $in: ['pending','processing'] } })`
(`backend/services/jobManager.js` lines 190-195). -/
def activeForScript (scriptId : Nat) (j : Job) : Bool :=
  j.scriptId == scriptId && j.jobType == "batch_image_generation" &&
    (j.status == JobStatus.pending || j.status == JobStatus.processing)

/-- `JobManager.createBatchImageJob(scriptId, color, quality, style, provider)`
(`backend/services/jobManager.js` lines 184-237): script lookup, idempotent
reuse of an existing pending/processing job, the chunks-without-images
filter `!chunk.imageUrl`, and insertion of the fresh job with `status
'pending'`, zeroed progress counters, one pending item per un-illustrated
chunk, and the `config` as cast by the Job schema. -/
def createBatchImageJob (st : Store) (scriptId : Nat)
    (color quality style provider : String) (now : Nat) :
    Except CreateError (Job × Store) :=
  match st.scripts.find? (fun s => s.id == scriptId) with
  | none => Except.error CreateError.scriptNotFound
  | some script =>
    match st.jobs.find? (activeForScript scriptId) with
    | some existingJob => Except.ok (existingJob, st)
    | none =>
      let chunksWithoutImages := script.chunks.filter fun c => c.imageUrl.isNone
      if chunksWithoutImages.isEmpty then
        Except.error CreateError.allChunksHaveImages
      else
        let job : Job :=
          { id := st.nextJobId
            scriptId := scriptId
            jobType := "batch_image_generation"
            status := JobStatus.pending
            progress :=
              { totalChunks := chunksWithoutImages.length
                processedChunks := 0
                failedChunks := 0 }
            config := castJobConfig color quality style provider
            chunksToProcess := chunksWithoutImages.map fun c =>
              { chunkId := c.id, status := ItemStatus.pending }
            createdAt := now }
        Except.ok (job, { st with jobs := st.jobs ++ [job], nextJobId := st.nextJobId + 1 })

/-- The method names defined on the `JobManager` class
(`backend/services/jobManager.js` lines 6-273): its constructor plus every
method of the class body, in source order. -/
def jobManagerMethods : List String :=
  ["constructor", "startProcessor", "resumeIncompleteJobs", "processJobs", "processJob",
   "processBatchImageGeneration", "createBatchImageJob", "getJobStatus", "sleep",
   "stopProcessor"]

/-- Response of the cancel-batch route: either a JSON body forwarded from
the manager, or the HTTP 500 `{ error }` body produced by the route's
`catch`. -/
inductive CancelResponse
  | ok (cancelled : Bool)
  | serverError (message : String)
deriving DecidableEq, Repr

/-- `router.post('/:scriptId/cancel-batch')` (`backend/routes/scripts.js`
lines 354-366): the handler invokes `jobManager.cancelBatchJob(scriptId)`.
Property lookup on the `JobManager` instance resolves through the class
methods; when the name is not among them the lookup yields `undefined` and
the call raises `TypeError: jobManager.cancelBatchJob is not a function`,
which the `catch` turns into a 500 `{ error }` response.  No job document
is read or written on that path, so the jobs collection is returned
unchanged. -/
def cancelBatchRoute (jobs : List Job) (_scriptId : Nat) : CancelResponse × List Job :=
  if "cancelBatchJob" ∈ jobManagerMethods then
    (CancelResponse.ok true, jobs)
  else
    (CancelResponse.serverError "jobManager.cancelBatchJob is not a function", jobs)

/-- Count of items currently `completed`. -/
def countCompleted (job : Job) : Nat :=
  (job.chunksToProcess.filter fun it => it.status == ItemStatus.completed).length

/-- Count of items currently `failed`. -/
def countFailed (job : Job) : Nat :=
  (job.chunksToProcess.filter fun it => it.status == ItemStatus.failed).length

/-- Progress-count relation maintained by the manager: `processedChunks`
tracks the number of `completed` items exactly, while `failedChunks` is an
upper bound of the number of currently-`failed` items (failure increments
the counter, but a later retry of a failed item never decrements it). -/
def progressMatches (job : Job) : Prop :=
  job.progress.processedChunks = countCompleted job ∧
    countFailed job ≤ job.progress.failedChunks

instance (job : Job) : Decidable (progressMatches job) := by
  unfold progressMatches; infer_instance

/-- Comparison of two job states by their `processedChunks` counter. -/
def processedLE (a b : Job) : Prop :=
  a.progress.processedChunks ≤ b.progress.processedChunks

instance (a b : Job) : Decidable (processedLE a b) := by
  unfold processedLE; infer_instance

/-- Store well-formedness from the Job schema: `type` is an enum with the
single member `'batch_image_generation'` (`backend/models/Job.js` lines 9-13),
so every persisted job carries that type. -/
def WellTyped (jobs : List Job) : Prop :=
  ∀ j ∈ jobs, j.jobType = "batch_image_generation"

/-- The at-most-one-active-job-per-subject invariant: any two jobs of the
collection that are both `pending`/`processing` for the same script are the
same job. -/
def AtMostOneActive (jobs : List Job) : Prop :=
  ∀ j1 ∈ jobs, ∀ j2 ∈ jobs,
    (j1.status = JobStatus.pending ∨ j1.status = JobStatus.processing) →
    (j2.status = JobStatus.pending ∨ j2.status = JobStatus.processing) →
    j1.scriptId = j2.scriptId → j1 = j2

/-- The chunk fields the batch pass never writes: the secondary asset
reference and the two analysis descriptions. -/
def secondaryFields (scripts : List Script) :
    List (List (Option String × Option String × Option String)) :=
  scripts.map fun s =>
    s.chunks.map fun c => (c.secondaryImageUrl, c.sceneDescription, c.symbolDescription)

/-! Concrete sample data used to exercise the model. -/

/-- A script with a single un-illustrated chunk. -/
def sampleScript : Script := { id := 1, chunks := [{ id := "c1", content := "hello" }] }

/-- A store holding `sampleScript` and no jobs. -/
def sampleStore : Store := { scripts := [sampleScript], jobs := [], nextJobId := 10 }

/-- A provider environment in which every collaborator call succeeds
deterministically. -/
def envAllOk : ProviderEnv where
  analyzeSceneDescription := fun c => Except.ok ("scene_" ++ c)
  analyzeSymbolsAndObjects := fun c => Except.ok ("symbol_" ++ c)
  generateImageWithScene := fun d _ _ _ => Except.ok ("main_" ++ d)
  generateSymbolImage := fun d _ _ _ => Except.ok ("sec_" ++ d)
  openaiGenerate := fun c _ _ _ => Except.ok ("url_" ++ c)
  nanobananaGenerate := fun c _ _ _ => Except.ok ("nb_" ++ c)

/-- A provider environment in which every collaborator call throws. -/
def envAllFail : ProviderEnv where
  analyzeSceneDescription := fun _ => Except.error "boom"
  analyzeSymbolsAndObjects := fun _ => Except.error "boom"
  generateImageWithScene := fun _ _ _ _ => Except.error "boom"
  generateSymbolImage := fun _ _ _ _ => Except.error "boom"
  openaiGenerate := fun _ _ _ _ => Except.error "boom"
  nanobananaGenerate := fun _ _ _ _ => Except.error "boom"

/-- Placeholder job used as a `getD` default in the concrete scenarios. -/
def dummyJob : Job where
  id := 0
  scriptId := 0
  jobType := ""
  status := JobStatus.pending
  progress := { totalChunks := 0, processedChunks := 0, failedChunks := 0 }
  config := {}
  chunksToProcess := []

/-- The job created for `sampleScript` with the NanoBanana provider and
infographic style requested at creation. -/
def createdJob : Job :=
  match createBatchImageJob sampleStore 1 "white" "high" "infographic" "nanobanana" 0 with
  | Except.ok (j, _) => j
  | Except.error _ => dummyJob

/-- The store as persisted by that creation. -/
def createdStore : Store :=
  match createBatchImageJob sampleStore 1 "white" "high" "infographic" "nanobanana" 0 with
  | Except.ok (_, st) => st
  | Except.error _ => sampleStore

/-- A run of `createdJob` in which the provider call succeeds. -/
def okRun : PassState := processJob envAllOk 1 createdStore.scripts createdJob

/-- A run of `createdJob` in which the provider call throws. -/
def failRun : PassState := processJob envAllFail 1 createdStore.scripts createdJob

/-- The persisted job state at the moment after the failing item was saved
in `failRun` (job status still `processing`): the state a hard crash at
that point leaves in the store. -/
def crashJob : Job := (failRun.snaps.get? 2).getD dummyJob

/-- The crash state after the next startup reconciliation. -/
def resumedJob : Job := (resumeIncompleteJobs [crashJob]).headD dummyJob

/-- The re-execution of the resumed job, with the provider now succeeding:
the retry pass over the previously failed item. -/
def secondRun : PassState := processJob envAllOk 2 [sampleScript] resumedJob

/-- A job interrupted mid-item by a crash: job status `processing` with its
single item also left `processing`. -/
def jobC1 : Job where
  id := 7
  scriptId := 1
  jobType := "batch_image_generation"
  status := JobStatus.processing
  progress := { totalChunks := 1, processedChunks := 0, failedChunks := 0 }
  config := castJobConfig "white" "high" "infographic" "openai"
  chunksToProcess := [{ chunkId := "c1", status := ItemStatus.processing }]

/-- A script whose only chunk already carries an image (the state a manual
single-item generation leaves behind). -/
def doneScript : Script :=
  { id := 2, chunks := [{ id := "d1", content := "done", imageUrl := some "img_done" }] }

/-- A job targeting `doneScript` with its item still pending. -/
def c9Job : Job where
  id := 8
  scriptId := 2
  jobType := "batch_image_generation"
  status := JobStatus.processing
  progress := { totalChunks := 1, processedChunks := 0, failedChunks := 0 }
  config := castJobConfig "white" "high" "infographic" "openai"
  chunksToProcess := [{ chunkId := "d1", status := ItemStatus.pending }]

/-- Pass state at the start of processing `c9Job`. -/
def c9State : PassState :=
  { job := c9Job, scripts := [doneScript], snaps := [], calls := [] }

/-! Basic lemmas about `listModify` and the item counters. -/

theorem listModify_get?_self (f : α → α) :
    ∀ (i : Nat) (l : List α), (listModify f i l).get? i = (l.get? i).map f := by
  intro i l
  induction l generalizing i with
  | nil => cases i <;> simp [listModify]
  | cons x xs ih =>
    cases i with
    | zero => simp [listModify]
    | succ n => simpa [listModify] using ih n

theorem listModify_get?_ne (f : α → α) :
    ∀ (i j : Nat) (l : List α), j ≠ i → (listModify f i l).get? j = l.get? j := by
  intro i j l
  induction l generalizing i j with
  | nil => intro _; cases i <;> simp [listModify]
  | cons x xs ih =>
    intro hne
    cases i with
    | zero =>
      cases j with
      | zero => exact absurd rfl hne
      | succ m => simp [listModify]
    | succ n =>
      cases j with
      | zero => simp [listModify]
      | succ m =>
        have : m ≠ n := fun h => hne (by omega)
        simpa [listModify] using ih n m this

theorem filterLen_listModify (q : α → Bool) (f : α → α) :
    ∀ (i : Nat) (l : List α) (a : α), l.get? i = some a →
      ((listModify f i l).filter q).length + (if q a then 1 else 0)
        = (l.filter q).length + (if q (f a) then 1 else 0) := by
  intro i l
  induction l generalizing i with
  | nil => intro a h; cases i <;> simp at h
  | cons x xs ih =>
    intro a h
    cases i with
    | zero =>
      have ha : x = a := by simpa using h
      subst ha
      simp only [listModify, List.filter_cons]
      by_cases h1 : q x <;> by_cases h2 : q (f x) <;> simp [h1, h2]
    | succ n =>
      simp only [List.get?] at h
      have := ih n a h
      simp only [listModify, List.filter_cons]
      by_cases h1 : q x <;> simp [h1] <;> omega

theorem countCompleted_markItemCompleted (job : Job) (i now : Nat) (it : JobItem)
    (h : job.chunksToProcess.get? i = some it) (hne : it.status ≠ ItemStatus.completed) :
    countCompleted (markItemCompleted job i now) = countCompleted job + 1 := by
  have := filterLen_listModify (fun x => x.status == ItemStatus.completed)
    (fun x => { x with status := ItemStatus.completed, processedAt := some now })
    i job.chunksToProcess it h
  simp only [markItemCompleted, countCompleted] at *
  have hq : (it.status == ItemStatus.completed) = false := by
    simp [hne]
  simp [hq] at this
  omega

theorem countFailed_markItemCompleted (job : Job) (i now : Nat) (it : JobItem)
    (h : job.chunksToProcess.get? i = some it) :
    countFailed (markItemCompleted job i now) ≤ countFailed job := by
  have := filterLen_listModify (fun x => x.status == ItemStatus.failed)
    (fun x => { x with status := ItemStatus.completed, processedAt := some now })
    i job.chunksToProcess it h
  simp only [markItemCompleted, countFailed] at *
  by_cases hq : (it.status == ItemStatus.failed) = true <;> simp [hq] at this <;> omega

theorem countCompleted_markItemFailed (job : Job) (i : Nat) (msg : String) (it : JobItem)
    (h : job.chunksToProcess.get? i = some it) (hne : it.status ≠ ItemStatus.completed) :
    countCompleted (markItemFailed job i msg) = countCompleted job := by
  have := filterLen_listModify (fun x => x.status == ItemStatus.completed)
    (fun x => { x with status := ItemStatus.failed, error := some msg })
    i job.chunksToProcess it h
  simp only [markItemFailed, countCompleted] at *
  have hq : (it.status == ItemStatus.completed) = false := by
    simp [hne]
  simp [hq] at this
  omega

theorem countFailed_markItemFailed (job : Job) (i : Nat) (msg : String) (it : JobItem)
    (h : job.chunksToProcess.get? i = some it) :
    countFailed (markItemFailed job i msg) ≤ countFailed job + 1 := by
  have := filterLen_listModify (fun x => x.status == ItemStatus.failed)
    (fun x => { x with status := ItemStatus.failed, error := some msg })
    i job.chunksToProcess it h
  simp only [markItemFailed, countFailed] at *
  by_cases hq : (it.status == ItemStatus.failed) = true <;> simp [hq] at this <;> omega

theorem countCompleted_markItemProcessing (job : Job) (i : Nat) (it : JobItem)
    (h : job.chunksToProcess.get? i = some it) (hne : it.status ≠ ItemStatus.completed) :
    countCompleted (markItemProcessing job i) = countCompleted job := by
  have := filterLen_listModify (fun x => x.status == ItemStatus.completed)
    (fun x => { x with status := ItemStatus.processing })
    i job.chunksToProcess it h
  simp only [markItemProcessing, countCompleted] at *
  have hq : (it.status == ItemStatus.completed) = false := by
    simp [hne]
  simp [hq] at this
  omega

theorem countFailed_markItemProcessing (job : Job) (i : Nat) (it : JobItem)
    (h : job.chunksToProcess.get? i = some it) :
    countFailed (markItemProcessing job i) ≤ countFailed job := by
  have := filterLen_listModify (fun x => x.status == ItemStatus.failed)
    (fun x => { x with status := ItemStatus.processing })
    i job.chunksToProcess it h
  simp only [markItemProcessing, countFailed] at *
  by_cases hq : (it.status == ItemStatus.failed) = true <;> simp [hq] at this <;> omega

theorem markItemProcessing_get?_self (job : Job) (i : Nat) (it : JobItem)
    (h : job.chunksToProcess.get? i = some it) :
    (markItemProcessing job i).chunksToProcess.get? i
      = some { it with status := ItemStatus.processing } := by
  show (listModify _ i job.chunksToProcess).get? i = _
  rw [listModify_get?_self, h]
  rfl

theorem markItemFailed_processed (job : Job) (i : Nat) (msg : String) :
    (markItemFailed job i msg).progress.processedChunks = job.progress.processedChunks := rfl

theorem markItemFailed_failed (job : Job) (i : Nat) (msg : String) :
    (markItemFailed job i msg).progress.failedChunks = job.progress.failedChunks + 1 := rfl

theorem markItemCompleted_processed (job : Job) (i now : Nat) :
    (markItemCompleted job i now).progress.processedChunks
      = job.progress.processedChunks + 1 := rfl

theorem markItemCompleted_failed (job : Job) (i now : Nat) :
    (markItemCompleted job i now).progress.failedChunks = job.progress.failedChunks := rfl

theorem markItemProcessing_progress (job : Job) (i : Nat) :
    (markItemProcessing job i).progress = job.progress := rfl

/-! The per-item step preserves the progress-count relation, both in the
resulting job state and in every snapshot it persists. -/

theorem processChunkItem_progressMatches (env : ProviderEnv) (snapshot : Script) (now : Nat)
    (st : PassState) (i : Nat)
    (hM : progressMatches st.job)
    (hok : ∀ it, st.job.chunksToProcess.get? i = some it → it.status ≠ ItemStatus.completed) :
    progressMatches (processChunkItem env snapshot now st i).job ∧
      ∀ s ∈ (processChunkItem env snapshot now st i).snaps,
        s ∈ st.snaps ∨ progressMatches s := by
  obtain ⟨hP, hF⟩ := hM
  unfold processChunkItem
  cases hget : st.job.chunksToProcess.get? i with
  | none =>
    simp only [hget]
    exact ⟨⟨hP, hF⟩, fun s hs => Or.inl hs⟩
  | some it =>
    have hne : it.status ≠ ItemStatus.completed := hok it hget
    simp only [hget]
    cases hfind : snapshot.chunks.find? (fun c => c.id == it.chunkId) with
    | none =>
      have hCC := countCompleted_markItemFailed st.job i
        ("Chunk " ++ it.chunkId ++ " not found in script") it hget hne
      have hCF := countFailed_markItemFailed st.job i
        ("Chunk " ++ it.chunkId ++ " not found in script") it hget
      have hM' : progressMatches (markItemFailed st.job i
          ("Chunk " ++ it.chunkId ++ " not found in script")) := by
        constructor
        · rw [markItemFailed_processed, hCC]
          exact hP
        · rw [markItemFailed_failed]
          omega
      simp only [hfind]
      refine ⟨hM', fun s hs => ?_⟩
      rcases List.mem_append.mp hs with h | h
      · exact Or.inl h
      · simp only [List.mem_singleton] at h
        exact Or.inr (h ▸ hM')
    | some c =>
      simp only [hfind]
      by_cases himg : c.imageUrl.isSome = true
      · have hCC := countCompleted_markItemCompleted st.job i now it hget hne
        have hCF := countFailed_markItemCompleted st.job i now it hget
        have hM' : progressMatches (markItemCompleted st.job i now) := by
          constructor
          · rw [markItemCompleted_processed, hCC]
            omega
          · rw [markItemCompleted_failed]
            omega
        simp only [himg, if_true]
        refine ⟨hM', fun s hs => ?_⟩
        rcases List.mem_append.mp hs with h | h
        · exact Or.inl h
        · simp only [List.mem_singleton] at h
          exact Or.inr (h ▸ hM')
      · have hget1 := markItemProcessing_get?_self st.job i it hget
        have hne1 : ({ it with status := ItemStatus.processing } : JobItem).status
            ≠ ItemStatus.completed := by simp
        have hCC1 := countCompleted_markItemProcessing st.job i it hget hne
        have hCF1 := countFailed_markItemProcessing st.job i it hget
        have hM1 : progressMatches (markItemProcessing st.job i) := by
          constructor
          · show (markItemProcessing st.job i).progress.processedChunks = _
            rw [markItemProcessing_progress, hCC1]
            exact hP
          · show _ ≤ (markItemProcessing st.job i).progress.failedChunks
            rw [markItemProcessing_progress]
            omega
        simp only [himg, if_false]
        cases hgen : generateImage env c.content (st.job.config.provider.getD "openai")
            (st.job.config.color.getD "white") (st.job.config.quality.getD "high")
            (st.job.config.style.getD "infographic") with
        | error msg =>
          have hCC2 := countCompleted_markItemFailed (markItemProcessing st.job i) i msg
            _ hget1 hne1
          have hCF2 := countFailed_markItemFailed (markItemProcessing st.job i) i msg _ hget1
          have hM2 : progressMatches (markItemFailed (markItemProcessing st.job i) i msg) := by
            constructor
            · rw [markItemFailed_processed, markItemProcessing_progress, hCC2, hCC1]
              exact hP
            · rw [markItemFailed_failed, markItemProcessing_progress]
              omega
          simp only [hgen]
          refine ⟨hM2, fun s hs => ?_⟩
          rcases List.mem_append.mp hs with h | h
          · exact Or.inl h
          · rcases List.mem_cons.mp h with h' | h'
            · exact Or.inr (h' ▸ hM1)
            · simp only [List.mem_singleton] at h'
              exact Or.inr (h' ▸ hM2)
        | ok res =>
          cases hcast : castImageUrl res with
          | error msg =>
            have hCC2 := countCompleted_markItemFailed (markItemProcessing st.job i) i msg
              _ hget1 hne1
            have hCF2 := countFailed_markItemFailed (markItemProcessing st.job i) i msg _ hget1
            have hM2 : progressMatches (markItemFailed (markItemProcessing st.job i) i msg) := by
              constructor
              · rw [markItemFailed_processed, markItemProcessing_progress, hCC2, hCC1]
                exact hP
              · rw [markItemFailed_failed, markItemProcessing_progress]
                omega
            simp only [hgen, hcast]
            refine ⟨hM2, fun s hs => ?_⟩
            rcases List.mem_append.mp hs with h | h
            · exact Or.inl h
            · rcases List.mem_cons.mp h with h' | h'
              · exact Or.inr (h' ▸ hM1)
              · simp only [List.mem_singleton] at h'
                exact Or.inr (h' ▸ hM2)
          | ok url =>
            have hCC2 := countCompleted_markItemCompleted (markItemProcessing st.job i) i now
              _ hget1 hne1
            have hCF2 := countFailed_markItemCompleted (markItemProcessing st.job i) i now
              _ hget1
            have hM2 : progressMatches (markItemCompleted (markItemProcessing st.job i) i now) := by
              constructor
              · rw [markItemCompleted_processed, markItemProcessing_progress, hCC2, hCC1]
                omega
              · rw [markItemCompleted_failed, markItemProcessing_progress]
                omega
            simp only [hgen, hcast]
            refine ⟨hM2, fun s hs => ?_⟩
            rcases List.mem_append.mp hs with h | h
            · exact Or.inl h
            · rcases List.mem_cons.mp h with h' | h'
              · exact Or.inr (h' ▸ hM1)
              · simp only [List.mem_singleton] at h'
                exact Or.inr (h' ▸ hM2)

/-- The per-item step only mutates the item at the position it processes. -/
theorem processChunkItem_get?_ne (env : ProviderEnv) (snapshot : Script) (now : Nat)
    (st : PassState) (i j : Nat) (hne : j ≠ i) :
    (processChunkItem env snapshot now st i).job.chunksToProcess.get? j
      = st.job.chunksToProcess.get? j := by
  unfold processChunkItem
  cases hget : st.job.chunksToProcess.get? i with
  | none => rfl
  | some it =>
    simp only [hget]
    cases hfind : snapshot.chunks.find? (fun c => c.id == it.chunkId) with
    | none =>
      simp only [hfind]
      exact listModify_get?_ne _ i j _ hne
    | some c =>
      simp only [hfind]
      by_cases himg : c.imageUrl.isSome = true
      · simp only [himg, if_true]
        exact listModify_get?_ne _ i j _ hne
      · simp only [himg, if_false]
        cases hgen : generateImage env c.content (st.job.config.provider.getD "openai")
            (st.job.config.color.getD "white") (st.job.config.quality.getD "high")
            (st.job.config.style.getD "infographic") with
        | error msg =>
          simp only [hgen]
          show (listModify _ i (listModify _ i _)).get? j = _
          rw [listModify_get?_ne _ i j _ hne, listModify_get?_ne _ i j _ hne]
        | ok res =>
          cases hcast : castImageUrl res with
          | error msg =>
            simp only [hgen, hcast]
            show (listModify _ i (listModify _ i _)).get? j = _
            rw [listModify_get?_ne _ i j _ hne, listModify_get?_ne _ i j _ hne]
          | ok url =>
            simp only [hgen, hcast]
            show (listModify _ i (listModify _ i _)).get? j = _
            rw [listModify_get?_ne _ i j _ hne, listModify_get?_ne _ i j _ hne]

/-- Folding the per-item step over a duplicate-free list of positions whose
items are not yet completed preserves the progress-count relation in the
final job and in every persisted snapshot. -/
theorem foldl_processChunkItem_progressMatches (env : ProviderEnv) (snapshot : Script)
    (now : Nat) :
    ∀ (idxs : List Nat) (st : PassState),
      idxs.Nodup →
      (∀ i ∈ idxs, ∀ it, st.job.chunksToProcess.get? i = some it →
        it.status ≠ ItemStatus.completed) →
      progressMatches st.job →
      (∀ s ∈ st.snaps, progressMatches s) →
      progressMatches ((idxs.foldl (processChunkItem env snapshot now) st)).job ∧
        ∀ s ∈ (idxs.foldl (processChunkItem env snapshot now) st).snaps, progressMatches s := by
  intro idxs
  induction idxs with
  | nil => intro st _ _ hM hsnaps; exact ⟨hM, hsnaps⟩
  | cons i rest ih =>
    intro st hnd hok hM hsnaps
    have hstep := processChunkItem_progressMatches env snapshot now st i hM
      (fun it hit => hok i (List.mem_cons_self i rest) it hit)
    have hnotmem : i ∉ rest := (List.nodup_cons.mp hnd).1
    have hnd' : rest.Nodup := (List.nodup_cons.mp hnd).2
    simp only [List.foldl_cons]
    apply ih
    · exact hnd'
    · intro i' hi' it hit
      have hne : i' ≠ i := fun h => hnotmem (h ▸ hi')
      rw [processChunkItem_get?_ne env snapshot now st i i' hne] at hit
      exact hok i' (List.mem_cons_of_mem i hi') it hit
    · exact hstep.1
    · intro s hs
      rcases hstep.2 s hs with h | h
      · exact hsnaps s h
      · exact h

/-- Every position selected by the pass holds an item whose status is
`pending` or `failed`. -/
theorem selectedIdxs_spec (job : Job) (i : Nat) (hi : i ∈ selectedIdxs job) :
    ∃ it, job.chunksToProcess.get? i = some it ∧
      (it.status = ItemStatus.pending ∨ it.status = ItemStatus.failed) := by
  unfold selectedIdxs at hi
  have := List.mem_filter.mp hi
  cases hget : job.chunksToProcess.get? i with
  | none => rw [hget] at this; simp at this
  | some it =>
    rw [hget] at this
    refine ⟨it, rfl, ?_⟩
    have h2 := this.2
    simp only [Bool.or_eq_true, beq_iff_eq] at h2
    exact h2

/-- The selected positions are pairwise distinct. -/
theorem selectedIdxs_nodup (job : Job) : (selectedIdxs job).Nodup :=
  (List.nodup_range _).filter _

/-- One pass of `processBatchImageGeneration` preserves the progress-count
relation for the resulting job and all persisted snapshots. -/
theorem processBatch_progressMatches (env : ProviderEnv) (now : Nat)
    (scripts : List Script) (job : Job) (ps : PassState)
    (h : processBatchImageGeneration env now scripts job = Except.ok ps)
    (hM : progressMatches job) :
    progressMatches ps.job ∧ ∀ s ∈ ps.snaps, progressMatches s := by
  unfold processBatchImageGeneration at h
  cases hfind : scripts.find? (fun s => s.id == job.scriptId) with
  | none => rw [hfind] at h; cases h
  | some snapshot =>
    rw [hfind] at h
    have h' := Except.ok.inj h
    rw [← h']
    apply foldl_processChunkItem_progressMatches env snapshot now (selectedIdxs job)
      { job := job, scripts := scripts, snaps := [], calls := [] }
      (selectedIdxs_nodup job)
    · intro i hi it hit
      obtain ⟨it', hit', hst⟩ := selectedIdxs_spec job i hi
      rw [hit'] at hit
      cases hit
      rcases hst with h | h <;> simp [h]
    · exact hM
    · intro s hs; simp at hs

/-- `processJob` preserves the progress-count relation for the final job
state and every snapshot it persists. -/
theorem processJob_progressMatches (env : ProviderEnv) (now : Nat)
    (scripts : List Script) (job : Job) (hM : progressMatches job) :
    progressMatches (processJob env now scripts job).job ∧
      ∀ s ∈ (processJob env now scripts job).snaps, progressMatches s := by
  unfold processJob
  have hM1 : progressMatches { job with status := JobStatus.processing } := hM
  dsimp only
  split
  · cases hrun : processBatchImageGeneration env now scripts
        { job with status := JobStatus.processing } with
    | error msg =>
      refine ⟨hM1, fun s hs => ?_⟩
      rcases List.mem_cons.mp hs with h | h
      · exact h ▸ hM1
      · simp only [List.mem_singleton] at h
        exact h ▸ hM1
    | ok ps =>
      have hps := processBatch_progressMatches env now scripts _ ps hrun hM1
      have hfin : progressMatches
          { ps.job with status := JobStatus.completed, completedAt := some now } := hps.1
      refine ⟨hfin, fun s hs => ?_⟩
      rcases List.mem_cons.mp hs with h | h
      · exact h ▸ hM1
      · rcases List.mem_append.mp h with h' | h'
        · exact hps.2 s h'
        · simp only [List.mem_singleton] at h'
          exact h' ▸ hfin
  · refine ⟨hM1, fun s hs => ?_⟩
    rcases List.mem_cons.mp hs with h | h
    · exact h ▸ hM1
    · simp only [List.mem_singleton] at h
      exact h ▸ hM1

/-! Monotonicity machinery: `processedChunks` never decreases along the
sequence of persisted states. -/

theorem chain'_glue :
    ∀ (L : List Job) (a : Job) (m : List Job),
      List.Chain' processedLE (L ++ [a]) → List.Chain' processedLE (a :: m) →
      List.Chain' processedLE (L ++ m) := by
  intro L
  induction L with
  | nil =>
    intro a m _ h2
    simpa using h2.tail
  | cons x L' ih =>
    intro a m h1 h2
    have h1' := List.chain'_cons'.mp h1
    have ihm := ih a m h1'.2 h2
    refine List.chain'_cons'.mpr ⟨?_, ihm⟩
    intro y hy
    cases L' with
    | nil =>
      have hxa : processedLE x a := h1'.1 a rfl
      have hay : processedLE a y := (List.chain'_cons'.mp h2).1 y hy
      exact Nat.le_trans hxa hay
    | cons z L'' =>
      exact h1'.1 y hy

theorem processChunkItem_chain (env : ProviderEnv) (snapshot : Script) (now : Nat)
    (st : PassState) (i : Nat) (j0 : Job)
    (h : List.Chain' processedLE ((j0 :: st.snaps) ++ [st.job])) :
    List.Chain' processedLE
      ((j0 :: (processChunkItem env snapshot now st i).snaps)
        ++ [(processChunkItem env snapshot now st i).job]) := by
  unfold processChunkItem
  cases hget : st.job.chunksToProcess.get? i with
  | none => exact h
  | some it =>
    simp only [hget]
    cases hfind : snapshot.chunks.find? (fun c => c.id == it.chunkId) with
    | none =>
      simp only [hfind]
      have h2 : List.Chain' processedLE
          (st.job :: [markItemFailed st.job i ("Chunk " ++ it.chunkId ++ " not found in script"),
            markItemFailed st.job i ("Chunk " ++ it.chunkId ++ " not found in script")]) := by
        simp [List.chain'_cons, processedLE, markItemFailed_processed]
      have := chain'_glue (j0 :: st.snaps) st.job _ h h2
      simpa using this
    | some c =>
      simp only [hfind]
      by_cases himg : c.imageUrl.isSome = true
      · simp only [himg, if_true]
        have h2 : List.Chain' processedLE
            (st.job :: [markItemCompleted st.job i now, markItemCompleted st.job i now]) := by
          simp [List.chain'_cons, processedLE, markItemCompleted_processed]
        have := chain'_glue (j0 :: st.snaps) st.job _ h h2
        simpa using this
      · simp only [himg, if_false]
        cases hgen : generateImage env c.content (st.job.config.provider.getD "openai")
            (st.job.config.color.getD "white") (st.job.config.quality.getD "high")
            (st.job.config.style.getD "infographic") with
        | error msg =>
          simp only [hgen]
          have h2 : List.Chain' processedLE
              (st.job :: [markItemProcessing st.job i,
                markItemFailed (markItemProcessing st.job i) i msg,
                markItemFailed (markItemProcessing st.job i) i msg]) := by
            have e1 : (markItemProcessing st.job i).progress = st.job.progress :=
              markItemProcessing_progress st.job i
            simp [List.chain'_cons, processedLE, markItemFailed_processed, e1]
          have := chain'_glue (j0 :: st.snaps) st.job _ h h2
          simpa using this
        | ok res =>
          cases hcast : castImageUrl res with
          | error msg =>
            simp only [hgen, hcast]
            have h2 : List.Chain' processedLE
                (st.job :: [markItemProcessing st.job i,
                  markItemFailed (markItemProcessing st.job i) i msg,
                  markItemFailed (markItemProcessing st.job i) i msg]) := by
              have e1 : (markItemProcessing st.job i).progress = st.job.progress :=
                markItemProcessing_progress st.job i
              simp [List.chain'_cons, processedLE, markItemFailed_processed, e1]
            have := chain'_glue (j0 :: st.snaps) st.job _ h h2
            simpa using this
          | ok url =>
            simp only [hgen, hcast]
            have h2 : List.Chain' processedLE
                (st.job :: [markItemProcessing st.job i,
                  markItemCompleted (markItemProcessing st.job i) i now,
                  markItemCompleted (markItemProcessing st.job i) i now]) := by
              have e1 : (markItemProcessing st.job i).progress = st.job.progress :=
                markItemProcessing_progress st.job i
              simp [List.chain'_cons, processedLE, markItemCompleted_processed, e1]
            have := chain'_glue (j0 :: st.snaps) st.job _ h h2
            simpa using this

theorem foldl_processChunkItem_chain (env : ProviderEnv) (snapshot : Script) (now : Nat)
    (j0 : Job) :
    ∀ (idxs : List Nat) (st : PassState),
      List.Chain' processedLE ((j0 :: st.snaps) ++ [st.job]) →
      List.Chain' processedLE
        ((j0 :: (idxs.foldl (processChunkItem env snapshot now) st).snaps)
          ++ [(idxs.foldl (processChunkItem env snapshot now) st).job]) := by
  intro idxs
  induction idxs with
  | nil => intro st h; exact h
  | cons i rest ih =>
    intro st h
    simp only [List.foldl_cons]
    exact ih _ (processChunkItem_chain env snapshot now st i j0 h)

theorem processBatch_chain (env : ProviderEnv) (now : Nat)
    (scripts : List Script) (job : Job) (ps : PassState)
    (h : processBatchImageGeneration env now scripts job = Except.ok ps) :
    List.Chain' processedLE ((job :: ps.snaps) ++ [ps.job]) := by
  unfold processBatchImageGeneration at h
  cases hfind : scripts.find? (fun s => s.id == job.scriptId) with
  | none => rw [hfind] at h; cases h
  | some snapshot =>
    rw [hfind] at h
    have h' := Except.ok.inj h
    rw [← h']
    apply foldl_processChunkItem_chain env snapshot now job (selectedIdxs job)
      { job := job, scripts := scripts, snaps := [], calls := [] }
    simp [List.chain'_cons, processedLE]

/-- Along any `processJob` run, the sequence of persisted job states
starting from the input job never decreases its `processedChunks`. -/
theorem processJob_chain (env : ProviderEnv) (now : Nat)
    (scripts : List Script) (job : Job) :
    List.Chain' processedLE (job :: (processJob env now scripts job).snaps) := by
  unfold processJob
  dsimp only
  split
  · cases hrun : processBatchImageGeneration env now scripts
        { job with status := JobStatus.processing } with
    | error msg =>
      simp [List.chain'_cons, processedLE]
    | ok ps =>
      have hc := processBatch_chain env now scripts _ ps hrun
      have h2 : List.Chain' processedLE
          (ps.job :: [{ ps.job with status := JobStatus.completed, completedAt := some now }]) := by
        simp [List.chain'_cons, processedLE]
      have hglue := chain'_glue ({ job with status := JobStatus.processing } :: ps.snaps)
        ps.job _ hc h2
      refine List.chain'_cons'.mpr ⟨?_, ?_⟩
      · intro y hy
        simp only [List.head?] at hy
        cases hy
        exact Nat.le_refl _
      · simpa using hglue
  · simp [List.chain'_cons, processedLE]

/-! The batch write-back never touches the secondary asset reference or the
scene/symbol descriptions of any chunk. -/

theorem updateFirstChunk_secondary (chunkId url provider : String) (now : Nat) :
    ∀ chunks : List Chunk,
      (updateFirstChunk chunkId url provider now chunks).map
          (fun c => (c.secondaryImageUrl, c.sceneDescription, c.symbolDescription))
        = chunks.map (fun c => (c.secondaryImageUrl, c.sceneDescription, c.symbolDescription)) := by
  intro chunks
  induction chunks with
  | nil => rfl
  | cons c cs ih =>
    by_cases hid : c.id = chunkId
    · simp [updateFirstChunk, hid]
    · simp [updateFirstChunk, hid, ih]

theorem updateChunkAsset_secondary (scripts : List Script) (scriptId : Nat)
    (chunkId url provider : String) (now : Nat) :
    secondaryFields (updateChunkAsset scripts scriptId chunkId url provider now)
      = secondaryFields scripts := by
  unfold secondaryFields updateChunkAsset
  rw [List.map_map]
  apply List.map_congr_left
  intro s _
  by_cases hs : s.id = scriptId
  · simp [hs, updateFirstChunk_secondary]
  · simp [hs]

theorem processChunkItem_secondary (env : ProviderEnv) (snapshot : Script) (now : Nat)
    (st : PassState) (i : Nat) :
    secondaryFields (processChunkItem env snapshot now st i).scripts
      = secondaryFields st.scripts := by
  unfold processChunkItem
  cases hget : st.job.chunksToProcess.get? i with
  | none => rfl
  | some it =>
    simp only [hget]
    cases hfind : snapshot.chunks.find? (fun c => c.id == it.chunkId) with
    | none => rfl
    | some c =>
      simp only [hfind]
      by_cases himg : c.imageUrl.isSome = true
      · simp only [himg, if_true]
      · simp only [himg, if_false]
        cases hgen : generateImage env c.content (st.job.config.provider.getD "openai")
            (st.job.config.color.getD "white") (st.job.config.quality.getD "high")
            (st.job.config.style.getD "infographic") with
        | error msg => rfl
        | ok res =>
          cases hcast : castImageUrl res with
          | error msg =>
            simp only [hcast]
            rfl
          | ok url =>
            simp only [hgen, hcast]
            exact updateChunkAsset_secondary st.scripts st.job.scriptId it.chunkId url _ now

theorem foldl_processChunkItem_secondary (env : ProviderEnv) (snapshot : Script) (now : Nat) :
    ∀ (idxs : List Nat) (st : PassState),
      secondaryFields (idxs.foldl (processChunkItem env snapshot now) st).scripts
        = secondaryFields st.scripts := by
  intro idxs
  induction idxs with
  | nil => intro st; rfl
  | cons i rest ih =>
    intro st
    simp only [List.foldl_cons]
    rw [ih, processChunkItem_secondary]

theorem processJob_secondary (env : ProviderEnv) (now : Nat)
    (scripts : List Script) (job : Job) :
    secondaryFields (processJob env now scripts job).scripts = secondaryFields scripts := by
  unfold processJob
  dsimp only
  split
  · cases hrun : processBatchImageGeneration env now scripts
        { job with status := JobStatus.processing } with
    | error msg => rfl
    | ok ps =>
      show secondaryFields ps.scripts = _
      unfold processBatchImageGeneration at hrun
      cases hfind : scripts.find?
          (fun s => s.id == ({ job with status := JobStatus.processing } : Job).scriptId) with
      | none => rw [hfind] at hrun; cases hrun
      | some snapshot =>
        rw [hfind] at hrun
        have h' := Except.ok.inj hrun
        rw [← h']
        exact foldl_processChunkItem_secondary env snapshot now _ _
  · rfl

/-- Startup reconciliation leaves the `processedChunks` counter of every
job untouched. -/
theorem resume_processed_map (jobs : List Job) :
    (resumeIncompleteJobs jobs).map (fun j => j.progress.processedChunks)
      = jobs.map (fun j => j.progress.processedChunks) := by
  unfold resumeIncompleteJobs
  rw [List.map_map]
  apply List.map_congr_left
  intro j _
  by_cases h : j.status = JobStatus.pending ∨ j.status = JobStatus.processing <;> simp [h]

/-- A freshly created job has zeroed counters, all-pending items drawn
from the un-illustrated chunks, and `status = pending`. -/
theorem createBatchImageJob_new (st : Store) (scriptId : Nat)
    (color quality style provider : String) (now : Nat) (s : Script) (j : Job) (st' : Store)
    (hs : st.scripts.find? (fun sc => sc.id == scriptId) = some s)
    (hnone : st.jobs.find? (activeForScript scriptId) = none)
    (h : createBatchImageJob st scriptId color quality style provider now
      = Except.ok (j, st')) :
    j = { id := st.nextJobId
          scriptId := scriptId
          jobType := "batch_image_generation"
          status := JobStatus.pending
          progress :=
            { totalChunks := (s.chunks.filter fun c => c.imageUrl.isNone).length
              processedChunks := 0
              failedChunks := 0 }
          config := castJobConfig color quality style provider
          chunksToProcess := (s.chunks.filter fun c => c.imageUrl.isNone).map fun c =>
            { chunkId := c.id, status := ItemStatus.pending }
          createdAt := now } ∧
      st' = { st with jobs := st.jobs ++ [j], nextJobId := st.nextJobId + 1 } := by
  unfold createBatchImageJob at h
  rw [hs, hnone] at h
  dsimp only at h
  by_cases hempty : (s.chunks.filter fun c => c.imageUrl.isNone).isEmpty = true
  · rw [if_pos hempty] at h; cases h
  · rw [if_neg hempty] at h
    have h' := Except.ok.inj h
    have hj : j = _ := (Prod.mk.injEq _ _ _ _ |>.mp h').1.symm
    have hst : st' = _ := (Prod.mk.injEq _ _ _ _ |>.mp h').2.symm
    exact ⟨hj, by rw [hst, hj]⟩

/-! Claim theorems. -/

/-- C1 (counterexample): the claim says startup reconciliation also demotes
`processing` JobItems to `pending` so they are re-selected and retried.  On
the concrete crash state `jobC1` (job `processing`, its one item
`processing`), `resumeIncompleteJobs` resets only the job-level status: the
item stays `processing`, and the per-job execution pass — which selects
items by status `pending`/`failed` — selects nothing, so the interrupted
item is never retried. -/
theorem claim_C1_counterexample :
    resumeIncompleteJobs [jobC1] = [{ jobC1 with status := JobStatus.pending }] ∧
    ({ jobC1 with status := JobStatus.pending } : Job).chunksToProcess.map
        (fun it => it.status) = [ItemStatus.processing] ∧
    selectedIdxs { jobC1 with status := JobStatus.pending } = [] := by
  decide

/-- C1 (amended): on startup, every job found with status `pending` or
`processing` has its job-level status reset to `pending`; its items are
left untouched, and consequently an item still `processing` is not
selected by the per-job execution pass. -/
theorem claim_C1_amended (jobs : List Job) (i : Nat) (j : Job)
    (h : jobs.get? i = some j) :
    ∃ j', (resumeIncompleteJobs jobs).get? i = some j' ∧
      ((j.status = JobStatus.pending ∨ j.status = JobStatus.processing) →
        j'.status = JobStatus.pending) ∧
      j'.chunksToProcess = j.chunksToProcess ∧
      ∀ k it, j'.chunksToProcess.get? k = some it →
        it.status = ItemStatus.processing → k ∉ selectedIdxs j' := by
  unfold resumeIncompleteJobs
  refine ⟨if j.status = JobStatus.pending ∨ j.status = JobStatus.processing then
      { j with status := JobStatus.pending } else j, ?_, ?_, ?_, ?_⟩
  · rw [List.get?_eq_getElem?, List.getElem?_map, ← List.get?_eq_getElem?, h]
    rfl
  · intro hst
    rw [if_pos hst]
  · by_cases hst : j.status = JobStatus.pending ∨ j.status = JobStatus.processing
    · rw [if_pos hst]
    · rw [if_neg hst]
  · intro k it hk hst hmem
    obtain ⟨it', hit', hps⟩ := selectedIdxs_spec _ k hmem
    rw [hk] at hit'
    cases hit'
    rw [hst] at hps
    rcases hps with h' | h' <;> cases h'

/-- C1 witness: the amended statement applied to the concrete crash state. -/
theorem claim_C1_witness :
    ∃ j', (resumeIncompleteJobs [jobC1]).get? 0 = some j' ∧
      ((jobC1.status = JobStatus.pending ∨ jobC1.status = JobStatus.processing) →
        j'.status = JobStatus.pending) ∧
      j'.chunksToProcess = jobC1.chunksToProcess ∧
      ∀ k it, j'.chunksToProcess.get? k = some it →
        it.status = ItemStatus.processing → k ∉ selectedIdxs j' :=
  claim_C1_amended [jobC1] 0 jobC1 (by rfl)

/-- C2 (counterexample): on the one-chunk job `createdJob` run with a
provider that always fails, the pass leaves the single item `failed` with
`failedChunks = 1`, yet `processJob` still marks the job `completed` with a
completion timestamp — contradicting the claim that a job with failed
items is marked `Failed` and is never `Completed` while an item is
`Failed`. -/
theorem claim_C2_counterexample :
    failRun.job.status = JobStatus.completed ∧
    failRun.job.completedAt = some 1 ∧
    failRun.job.chunksToProcess.map (fun it => it.status) = [ItemStatus.failed] ∧
    failRun.job.progress.failedChunks = 1 := by
  decide

/-- C2 (amended): whenever the batch pass returns normally — that is,
whenever the job's script exists — `processJob` sets the job status to
`completed` with a completion timestamp, regardless of per-item failures
(in particular also when every item completed); the job is marked `failed`
exactly when the pass throws, i.e. when the script is missing, with the
thrown message recorded as the job error. -/
theorem claim_C2_amended (env : ProviderEnv) (now : Nat) (scripts : List Script) (job : Job)
    (htype : job.jobType = "batch_image_generation") :
    (∀ s, scripts.find? (fun sc => sc.id == job.scriptId) = some s →
      (processJob env now scripts job).job.status = JobStatus.completed ∧
        (processJob env now scripts job).job.completedAt = some now) ∧
    (scripts.find? (fun sc => sc.id == job.scriptId) = none →
      (processJob env now scripts job).job.status = JobStatus.failed ∧
        (processJob env now scripts job).job.error = some "Script not found") := by
  unfold processJob
  dsimp only
  rw [if_pos htype]
  cases hrun : processBatchImageGeneration env now scripts
      { job with status := JobStatus.processing } with
  | ok ps =>
    constructor
    · intro s _
      exact ⟨rfl, rfl⟩
    · intro hnone
      unfold processBatchImageGeneration at hrun
      dsimp only at hrun
      rw [hnone] at hrun
      exact Except.noConfusion hrun
  | error msg =>
    constructor
    · intro s hfind
      unfold processBatchImageGeneration at hrun
      dsimp only at hrun
      rw [hfind] at hrun
      exact Except.noConfusion hrun
    · intro hnone
      unfold processBatchImageGeneration at hrun
      dsimp only at hrun
      rw [hnone] at hrun
      have hmsg : msg = "Script not found" := (Except.error.inj hrun).symm
      exact ⟨rfl, by rw [hmsg]⟩

/-- C2 witness: the amended statement applied to `createdJob` over the
stores with and without its script. -/
theorem claim_C2_witness :
    ((∀ s, createdStore.scripts.find? (fun sc => sc.id == createdJob.scriptId) = some s →
      (processJob envAllOk 1 createdStore.scripts createdJob).job.status
          = JobStatus.completed ∧
        (processJob envAllOk 1 createdStore.scripts createdJob).job.completedAt = some 1) ∧
    (createdStore.scripts.find? (fun sc => sc.id == createdJob.scriptId) = none →
      (processJob envAllOk 1 createdStore.scripts createdJob).job.status
          = JobStatus.failed ∧
        (processJob envAllOk 1 createdStore.scripts createdJob).job.error
          = some "Script not found")) ∧
    ((∀ s, ([] : List Script).find? (fun sc => sc.id == createdJob.scriptId) = some s →
      (processJob envAllOk 1 [] createdJob).job.status = JobStatus.completed ∧
        (processJob envAllOk 1 [] createdJob).job.completedAt = some 1) ∧
    (([] : List Script).find? (fun sc => sc.id == createdJob.scriptId) = none →
      (processJob envAllOk 1 [] createdJob).job.status = JobStatus.failed ∧
        (processJob envAllOk 1 [] createdJob).job.error = some "Script not found")) :=
  ⟨claim_C2_amended envAllOk 1 createdStore.scripts createdJob (by decide),
   claim_C2_amended envAllOk 1 [] createdJob (by decide)⟩

/-- C9 (confirmed): when the selected item's chunk already carries an
image in the script snapshot, the loop body marks the item `completed`
with a processed timestamp, increments `progress.processedChunks`, makes
no `ImageService.generateImage` call, performs no Document write, and
persists the job before continuing with the next item. -/
theorem claim_C9 (env : ProviderEnv) (snapshot : Script) (now : Nat) (st : PassState)
    (i : Nat) (it : JobItem) (c : Chunk)
    (h1 : st.job.chunksToProcess.get? i = some it)
    (h2 : snapshot.chunks.find? (fun ch => ch.id == it.chunkId) = some c)
    (h3 : c.imageUrl.isSome = true) :
    (processChunkItem env snapshot now st i).job.chunksToProcess.get? i
        = some { it with status := ItemStatus.completed, processedAt := some now } ∧
      (processChunkItem env snapshot now st i).job.progress.processedChunks
        = st.job.progress.processedChunks + 1 ∧
      (processChunkItem env snapshot now st i).calls = st.calls ∧
      (processChunkItem env snapshot now st i).scripts = st.scripts ∧
      (processChunkItem env snapshot now st i).snaps
        = st.snaps ++ [(processChunkItem env snapshot now st i).job] := by
  unfold processChunkItem
  simp only [h1, h2, h3, if_true]
  refine ⟨?_, ?_, ?_, ?_, ?_⟩
  · show (listModify _ i st.job.chunksToProcess).get? i = _
    rw [listModify_get?_self, h1]
    rfl
  all_goals trivial

/-- C9 witness: the skip guard exercised on the concrete state `c9State`,
whose script chunk `d1` already has an image. -/
theorem claim_C9_witness :
    (processChunkItem envAllOk doneScript 5 c9State 0).job.chunksToProcess.get? 0
        = some { chunkId := "d1", status := ItemStatus.completed, error := none,
                 processedAt := some 5 } ∧
      (processChunkItem envAllOk doneScript 5 c9State 0).job.progress.processedChunks
        = c9State.job.progress.processedChunks + 1 ∧
      (processChunkItem envAllOk doneScript 5 c9State 0).calls = c9State.calls ∧
      (processChunkItem envAllOk doneScript 5 c9State 0).scripts = c9State.scripts ∧
      (processChunkItem envAllOk doneScript 5 c9State 0).snaps
        = c9State.snaps ++ [(processChunkItem envAllOk doneScript 5 c9State 0).job] :=
  claim_C9 envAllOk doneScript 5 c9State 0
    { chunkId := "d1", status := ItemStatus.pending }
    { id := "d1", content := "done", imageUrl := some "img_done" }
    (by rfl) (by rfl) (by rfl)

/-- C5 (code bug): a batch job created for `sampleScript` with provider
`nanobanana` and style `infographic` is persisted with a `config` that
holds only `color` and `quality` — the schema strips `style` and
`provider` — and the per-item execution then dispatches
`ImageService.generateImage` with provider `openai` and style
`infographic` instead of the provider named at creation. -/
theorem claim_C5_bug :
    createBatchImageJob sampleStore 1 "white" "high" "infographic" "nanobanana" 0
        = Except.ok (createdJob, createdStore) ∧
    createdJob.config
        = { color := some "white", quality := some "high", style := none,
            provider := none } ∧
    okRun.calls = [{ provider := "openai", content := "hello", style := "infographic" }] :=
  ⟨rfl, by decide, by decide⟩

/-- C6 (code bug): the cancel-batch route invokes
`jobManager.cancelBatchJob`, a method the `JobManager` class does not
define, so the call throws and the route answers with the 500 error body
for every request; no job is touched and no job ever becomes `paused` on
this path. -/
theorem claim_C6_bug :
    cancelBatchRoute [createdJob] 1
        = (CancelResponse.serverError "jobManager.cancelBatchJob is not a function",
           [createdJob]) ∧
    jobManagerMethods.contains "cancelBatchJob" = false ∧
    [createdJob].map (fun j => j.status) = [JobStatus.pending] := by
  decide

/-- C7 (counterexample): the job for `sampleScript` is created under the
two-stage configuration (provider `nanobanana`, style `infographic`) and
its item is processed successfully, yet the Document chunk ends with only
`imageUrl`, `imageProvider` and `imageGeneratedAt` set — the secondary
asset reference and the scene/symbol descriptions are never written by the
batch pass (which, due to the stripped config, did not even take the
two-stage path). -/
theorem claim_C7_counterexample :
    createBatchImageJob sampleStore 1 "white" "high" "infographic" "nanobanana" 0
        = Except.ok (createdJob, createdStore) ∧
    okRun.job.chunksToProcess.map (fun it => it.status) = [ItemStatus.completed] ∧
    okRun.scripts
        = [{ id := 1,
             chunks := [{ id := "c1",
                          content := "hello",
                          imageUrl := some "url_hello",
                          secondaryImageUrl := none,
                          sceneDescription := none,
                          symbolDescription := none,
                          imageProvider := some "openai",
                          imageGeneratedAt := some 1 }] }] :=
  ⟨rfl, by decide, by decide⟩

/-- C7 (amended): batch processing never writes a chunk's
`secondaryImageUrl`, `sceneDescription` or `symbolDescription` — those
fields are preserved verbatim across any `processJob` run; the two-stage
branch of `ImageService.generateImage` itself is atomic in the claimed
sense: when it succeeds it returns the two asset references together with
both descriptions as one value (any stage failing fails the whole call). -/
theorem claim_C7_amended (env : ProviderEnv) (now : Nat) (scripts : List Script) (job : Job) :
    secondaryFields (processJob env now scripts job).scripts = secondaryFields scripts ∧
    ∀ chunkContent color quality r,
      generateImage env chunkContent "nanobanana" color quality "infographic"
          = Except.ok r →
      ∃ mainUrl secUrl scene symbol, r = GenResult.dual mainUrl secUrl scene symbol := by
  constructor
  · exact processJob_secondary env now scripts job
  · intro chunkContent color quality r h
    unfold generateImage at h
    rw [if_neg (by decide), if_pos (by decide)] at h
    cases h1 : env.analyzeSceneDescription chunkContent with
    | error e => simp only [h1] at h; exact Except.noConfusion h
    | ok scene =>
      simp only [h1] at h
      cases h2 : env.analyzeSymbolsAndObjects chunkContent with
      | error e => simp only [h2] at h; exact Except.noConfusion h
      | ok symbol =>
        simp only [h2] at h
        cases h3 : env.generateImageWithScene scene color quality "infographic" with
        | error e => simp only [h3] at h; exact Except.noConfusion h
        | ok mainUrl =>
          simp only [h3] at h
          cases h4 : env.generateSymbolImage symbol color quality "infographic" with
          | error e => simp only [h4] at h; exact Except.noConfusion h
          | ok secUrl =>
            simp only [h4] at h
            exact ⟨mainUrl, secUrl, scene, symbol, (Except.ok.inj h).symm⟩

/-- C7 witness: the amended statement applied to `createdJob` and to the
all-succeeding provider environment. -/
theorem claim_C7_witness :
    secondaryFields (processJob envAllOk 1 createdStore.scripts createdJob).scripts
        = secondaryFields createdStore.scripts ∧
    ∃ mainUrl secUrl scene symbol,
      GenResult.dual "main_scene_hello" "sec_symbol_hello" "scene_hello" "symbol_hello"
        = GenResult.dual mainUrl secUrl scene symbol :=
  ⟨(claim_C7_amended envAllOk 1 createdStore.scripts createdJob).1,
   (claim_C7_amended envAllOk 1 createdStore.scripts createdJob).2 "hello" "white" "high"
     (GenResult.dual "main_scene_hello" "sec_symbol_hello" "scene_hello" "symbol_hello")
     (by rfl)⟩

/-- C10 (confirmed): `progress.processedChunks` never decreases — along
the chain of states persisted by any `processJob` run (creation of the
in-memory `processing` state, per-item skips, successes and failures, and
the final pass-completion save), under startup reconciliation (which keeps
the counter of every job unchanged), and at creation, where the counter
starts at 0. -/
theorem claim_C10 :
    (∀ (env : ProviderEnv) (now : Nat) (scripts : List Script) (job : Job),
      List.Chain' processedLE (job :: (processJob env now scripts job).snaps)) ∧
    (∀ jobs : List Job,
      (resumeIncompleteJobs jobs).map (fun j => j.progress.processedChunks)
        = jobs.map (fun j => j.progress.processedChunks)) ∧
    (∀ (st : Store) (scriptId : Nat) (color quality style provider : String) (now : Nat)
        (s : Script) (j : Job) (st' : Store),
      st.scripts.find? (fun sc => sc.id == scriptId) = some s →
      st.jobs.find? (activeForScript scriptId) = none →
      createBatchImageJob st scriptId color quality style provider now
        = Except.ok (j, st') →
      j.progress.processedChunks = 0) := by
  refine ⟨processJob_chain, resume_processed_map, ?_⟩
  intro st scriptId color quality style provider now s j st' hs hnone h
  have hj :=
    (createBatchImageJob_new st scriptId color quality style provider now s j st' hs hnone h).1
  rw [hj]

/-- C10 witness: monotonicity observed on the concrete pipeline. -/
theorem claim_C10_witness :
    List.Chain' processedLE
        (createdJob :: (processJob envAllOk 1 createdStore.scripts createdJob).snaps) ∧
    (resumeIncompleteJobs [crashJob]).map (fun j => j.progress.processedChunks)
        = [crashJob].map (fun j => j.progress.processedChunks) ∧
    createdJob.progress.processedChunks = 0 :=
  ⟨claim_C10.1 envAllOk 1 createdStore.scripts createdJob,
   claim_C10.2.1 [crashJob],
   claim_C10.2.2 sampleStore 1 "white" "high" "infographic" "nanobanana" 0 sampleScript
     createdJob createdStore (by rfl) (by rfl) (by rfl)⟩

/-- When a pending/processing job for the script already exists, creation
returns it and leaves the store untouched. -/
theorem createBatchImageJob_existing (st : Store) (scriptId : Nat)
    (color quality style provider : String) (now : Nat) (s : Script) (j : Job)
    (hs : st.scripts.find? (fun sc => sc.id == scriptId) = some s)
    (hfa : st.jobs.find? (activeForScript scriptId) = some j) :
    createBatchImageJob st scriptId color quality style provider now = Except.ok (j, st) := by
  unfold createBatchImageJob
  rw [hs]
  dsimp only
  rw [hfa]

/-- Filtering a freshly created all-pending item list for `completed` or
`failed` items yields nothing. -/
theorem counts_allPending (l : List Chunk) :
    ((l.map fun c => ({ chunkId := c.id, status := ItemStatus.pending } : JobItem)).filter
        (fun it => it.status == ItemStatus.completed)).length = 0 ∧
      ((l.map fun c => ({ chunkId := c.id, status := ItemStatus.pending } : JobItem)).filter
        (fun it => it.status == ItemStatus.failed)).length = 0 := by
  induction l with
  | nil => exact ⟨rfl, rfl⟩
  | cons c cs ih => simp [List.filter_cons, ih]

/-- C3 (counterexample): a concrete crash/retry history violating
`failedChunks == count(items, Failed)`.  `crashJob` is the state persisted
mid-pass by `failRun` — item `failed`, `failedChunks = 1`, job still
`processing` — which a crash leaves in the store; after reconciliation the
re-executed pass (`secondRun`, provider now succeeding) retries the failed
item, completes it, and persists a snapshot with `failedChunks = 1` while
no item is `failed` any more. -/
theorem claim_C3_counterexample :
    crashJob ∈ failRun.snaps ∧
    crashJob.status = JobStatus.processing ∧
    crashJob.progress.failedChunks = 1 ∧
    resumeIncompleteJobs [crashJob] = [resumedJob] ∧
    secondRun.job ∈ secondRun.snaps ∧
    secondRun.job.progress.failedChunks = 1 ∧
    countFailed secondRun.job = 0 ∧
    secondRun.job.progress.processedChunks = countCompleted secondRun.job := by
  decide

/-- C3 (amended): at creation both counters match the item counts (all
zero), and across every pass `processedChunks` stays exactly the number of
`completed` items at every persisted snapshot; `failedChunks`, however, is
only an upper bound on the number of currently-`failed` items — a failure
increments it, but re-processing a previously failed item never decrements
it, so after a crash-restart retry it can exceed the count. -/
theorem claim_C3_amended :
    (∀ (st : Store) (scriptId : Nat) (color quality style provider : String) (now : Nat)
        (s : Script) (j : Job) (st' : Store),
      st.scripts.find? (fun sc => sc.id == scriptId) = some s →
      st.jobs.find? (activeForScript scriptId) = none →
      createBatchImageJob st scriptId color quality style provider now
        = Except.ok (j, st') →
      j.progress.processedChunks = countCompleted j ∧
        j.progress.failedChunks = countFailed j) ∧
    (∀ (env : ProviderEnv) (now : Nat) (scripts : List Script) (job : Job),
      progressMatches job →
      progressMatches (processJob env now scripts job).job ∧
        ∀ s ∈ (processJob env now scripts job).snaps, progressMatches s) := by
  constructor
  · intro st scriptId color quality style provider now s j st' hs hnone h
    have hj :=
      (createBatchImageJob_new st scriptId color quality style provider now s j st'
        hs hnone h).1
    have hc := counts_allPending (s.chunks.filter fun c => c.imageUrl.isNone)
    rw [hj]
    unfold countCompleted countFailed
    exact ⟨hc.1.symm, hc.2.symm⟩
  · exact processJob_progressMatches

/-- C3 witness: the amended statement at the concrete creation and at the
concrete successful run. -/
theorem claim_C3_witness :
    (createdJob.progress.processedChunks = countCompleted createdJob ∧
      createdJob.progress.failedChunks = countFailed createdJob) ∧
    (progressMatches (processJob envAllOk 1 createdStore.scripts createdJob).job ∧
      ∀ s ∈ (processJob envAllOk 1 createdStore.scripts createdJob).snaps,
        progressMatches s) :=
  ⟨claim_C3_amended.1 sampleStore 1 "white" "high" "infographic" "nanobanana" 0 sampleScript
      createdJob createdStore (by rfl) (by rfl) (by rfl),
   claim_C3_amended.2 envAllOk 1 createdStore.scripts createdJob (by decide)⟩

/-- C4 (confirmed): creation is idempotent and preserves the
at-most-one-active-job-per-subject invariant.  (1) If a pending/processing
job for the subject exists, creation returns it with the store unchanged.
(2) Two successive create calls with no intervening state change return
the same job and store.  (3) Creation preserves the invariant that no two
distinct jobs for the same subject are simultaneously pending/processing
(using that the schema admits only the batch type). -/
theorem claim_C4 :
    (∀ (st : Store) (scriptId : Nat) (color quality style provider : String) (now : Nat)
        (s : Script) (j : Job),
      st.scripts.find? (fun sc => sc.id == scriptId) = some s →
      st.jobs.find? (activeForScript scriptId) = some j →
      createBatchImageJob st scriptId color quality style provider now
        = Except.ok (j, st)) ∧
    (∀ (st : Store) (scriptId : Nat) (color quality style provider : String) (now : Nat)
        (j : Job) (st' : Store),
      createBatchImageJob st scriptId color quality style provider now
        = Except.ok (j, st') →
      createBatchImageJob st' scriptId color quality style provider now
        = Except.ok (j, st')) ∧
    (∀ (st : Store) (scriptId : Nat) (color quality style provider : String) (now : Nat)
        (j : Job) (st' : Store),
      WellTyped st.jobs → AtMostOneActive st.jobs →
      createBatchImageJob st scriptId color quality style provider now
        = Except.ok (j, st') →
      AtMostOneActive st'.jobs) := by
  refine ⟨?_, ?_, ?_⟩
  · intro st scriptId color quality style provider now s j hs hfa
    exact createBatchImageJob_existing st scriptId color quality style provider now s j hs hfa
  · intro st scriptId color quality style provider now j st' h
    cases hfs : st.scripts.find? (fun sc => sc.id == scriptId) with
    | none =>
      unfold createBatchImageJob at h
      rw [hfs] at h
      exact Except.noConfusion h
    | some s =>
      cases hfa : st.jobs.find? (activeForScript scriptId) with
      | some j0 =>
        have hco := createBatchImageJob_existing st scriptId color quality style provider
          now s j0 hfs hfa
        rw [hco] at h
        have h' := Except.ok.inj h
        obtain ⟨hj, hst⟩ := (Prod.mk.injEq _ _ _ _).mp h'
        rw [← hst, ← hj]
        exact hco
      | none =>
        obtain ⟨hj, hst⟩ := createBatchImageJob_new st scriptId color quality style provider
          now s j st' hfs hfa h
        have hs' : st'.scripts.find? (fun sc => sc.id == scriptId) = some s := by
          rw [hst]
          exact hfs
        have hactive : activeForScript scriptId j = true := by
          rw [hj]
          simp [activeForScript]
        have hfa' : st'.jobs.find? (activeForScript scriptId) = some j := by
          rw [hst]
          show (st.jobs ++ [j]).find? (activeForScript scriptId) = some j
          rw [List.find?_append, hfa, Option.none_or]
          exact List.find?_cons_of_pos _ hactive
        exact createBatchImageJob_existing st' scriptId color quality style provider
          now s j hs' hfa'
  · intro st scriptId color quality style provider now j st' hWT hAMO h
    cases hfs : st.scripts.find? (fun sc => sc.id == scriptId) with
    | none =>
      unfold createBatchImageJob at h
      rw [hfs] at h
      exact Except.noConfusion h
    | some s =>
      cases hfa : st.jobs.find? (activeForScript scriptId) with
      | some j0 =>
        have hco := createBatchImageJob_existing st scriptId color quality style provider
          now s j0 hfs hfa
        rw [hco] at h
        have h' := Except.ok.inj h
        obtain ⟨_, hst⟩ := (Prod.mk.injEq _ _ _ _).mp h'
        rw [← hst]
        exact hAMO
      | none =>
        obtain ⟨hj, hst⟩ := createBatchImageJob_new st scriptId color quality style provider
          now s j st' hfs hfa h
        rw [hst]
        intro j1 h1 j2 h2 ha1 ha2 hsc
        have hnotin : ∀ x ∈ st.jobs, ¬ activeForScript scriptId x = true :=
          List.find?_eq_none.mp hfa
        have hjid : j.scriptId = scriptId := by rw [hj]
        have hactiveOf : ∀ x ∈ st.jobs,
            (x.status = JobStatus.pending ∨ x.status = JobStatus.processing) →
            x.scriptId = scriptId → False := by
          intro x hx hxa hxs
          apply hnotin x hx
          have hxt := hWT x hx
          unfold activeForScript
          rw [hxs, hxt]
          rcases hxa with h' | h' <;> rw [h'] <;> simp
        rcases List.mem_append.mp h1 with h1' | h1' <;>
          rcases List.mem_append.mp h2 with h2' | h2'
        · exact hAMO j1 h1' j2 h2' ha1 ha2 hsc
        · simp only [List.mem_singleton] at h2'
          exact (hactiveOf j1 h1' ha1 (by rw [hsc, h2']; exact hjid)).elim
        · simp only [List.mem_singleton] at h1'
          exact (hactiveOf j2 h2' ha2 (by rw [← hsc, h1']; exact hjid)).elim
        · simp only [List.mem_singleton] at h1' h2'
          rw [h1', h2']

/-- C4 witness: the two creation calls on the concrete store, and the
invariant preserved through the first creation. -/
theorem claim_C4_witness :
    createBatchImageJob createdStore 1 "white" "high" "infographic" "nanobanana" 0
        = Except.ok (createdJob, createdStore) ∧
    createBatchImageJob createdStore 1 "white" "high" "infographic" "nanobanana" 0
        = Except.ok (createdJob, createdStore) ∧
    AtMostOneActive createdStore.jobs :=
  ⟨claim_C4.1 createdStore 1 "white" "high" "infographic" "nanobanana" 0 sampleScript
      createdJob (by rfl) (by rfl),
   claim_C4.2.1 sampleStore 1 "white" "high" "infographic" "nanobanana" 0 createdJob
      createdStore (by rfl),
   claim_C4.2.2 sampleStore 1 "white" "high" "infographic" "nanobanana" 0 createdJob
      createdStore (by intro x hx; simp [sampleStore] at hx)
      (by intro x hx; simp [sampleStore] at hx) (by rfl)⟩

/-- C8 (confirmed): creation fails with the not-found error exactly when
the subject script does not exist; given the script and no active job, it
fails with the nothing-to-do error exactly when every chunk already has an
image; and otherwise it returns a `pending` job whose items are exactly
the chunks lacking an image (each `pending`), with `totalChunks` their
count and both other counters zero, appended to the store. -/
theorem claim_C8 (st : Store) (scriptId : Nat) (color quality style provider : String)
    (now : Nat) :
    (createBatchImageJob st scriptId color quality style provider now
        = Except.error CreateError.scriptNotFound
      ↔ st.scripts.find? (fun sc => sc.id == scriptId) = none) ∧
    (∀ s, st.scripts.find? (fun sc => sc.id == scriptId) = some s →
      st.jobs.find? (activeForScript scriptId) = none →
      (createBatchImageJob st scriptId color quality style provider now
          = Except.error CreateError.allChunksHaveImages
        ↔ ∀ c ∈ s.chunks, c.imageUrl.isSome = true)) ∧
    (∀ s, st.scripts.find? (fun sc => sc.id == scriptId) = some s →
      st.jobs.find? (activeForScript scriptId) = none →
      ¬ (∀ c ∈ s.chunks, c.imageUrl.isSome = true) →
      ∃ jb st', createBatchImageJob st scriptId color quality style provider now
          = Except.ok (jb, st') ∧
        jb.status = JobStatus.pending ∧
        jb.chunksToProcess = (s.chunks.filter fun c => c.imageUrl.isNone).map (fun c =>
          { chunkId := c.id, status := ItemStatus.pending }) ∧
        jb.progress.totalChunks = (s.chunks.filter fun c => c.imageUrl.isNone).length ∧
        jb.progress.processedChunks = 0 ∧
        jb.progress.failedChunks = 0 ∧
        st'.jobs = st.jobs ++ [jb]) := by
  have hallIff : ∀ s : Script,
      ((s.chunks.filter fun c => c.imageUrl.isNone).isEmpty = true
        ↔ ∀ c ∈ s.chunks, c.imageUrl.isSome = true) := by
    intro s
    rw [List.isEmpty_iff, List.filter_eq_nil_iff]
    constructor
    · intro hall c hc
      have := hall c hc
      cases hop : c.imageUrl with
      | none => rw [hop] at this; simp at this
      | some u => rfl
    · intro hall c hc
      have := hall c hc
      cases hop : c.imageUrl with
      | none => rw [hop] at this; cases this
      | some u => simp [hop]
  refine ⟨?_, ?_, ?_⟩
  · cases hfs : st.scripts.find? (fun sc => sc.id == scriptId) with
    | none =>
      unfold createBatchImageJob
      rw [hfs]
      simp
    | some s =>
      unfold createBatchImageJob
      rw [hfs]
      dsimp only
      cases hfa : st.jobs.find? (activeForScript scriptId) with
      | some j0 => simp [hfs]
      | none =>
        by_cases hempty : (s.chunks.filter fun c => c.imageUrl.isNone).isEmpty = true
        · rw [if_pos hempty]
          simp [hfs]
        · rw [if_neg hempty]
          simp [hfs]
  · intro s hfs hfa
    unfold createBatchImageJob
    rw [hfs]
    dsimp only
    rw [hfa]
    rw [← hallIff s]
    by_cases hempty : (s.chunks.filter fun c => c.imageUrl.isNone).isEmpty = true
    · rw [if_pos hempty]
      simp [hempty]
    · rw [if_neg hempty]
      simp [hempty]
  · intro s hfs hfa hnall
    have hempty : ¬ (s.chunks.filter fun c => c.imageUrl.isNone).isEmpty = true :=
      fun hem => hnall ((hallIff s).mp hem)
    cases hc : createBatchImageJob st scriptId color quality style provider now with
    | error e =>
      exfalso
      unfold createBatchImageJob at hc
      rw [hfs] at hc
      dsimp only at hc
      rw [hfa, if_neg hempty] at hc
      exact Except.noConfusion hc
    | ok p =>
      have hcc : createBatchImageJob st scriptId color quality style provider now
          = Except.ok (p.1, p.2) := by
        rw [hc]
      obtain ⟨hj, hst⟩ := createBatchImageJob_new st scriptId color quality style provider
        now s p.1 p.2 hfs hfa hcc
      refine ⟨p.1, p.2, rfl, ?_, ?_, ?_, ?_, ?_, ?_⟩
      · rw [hj]
      · rw [hj]
      · rw [hj]
      · rw [hj]
      · rw [hj]
      · rw [hst]

/-- C8 witness: the contract exercised on the concrete store with one
un-illustrated chunk. -/
theorem claim_C8_witness :
    (createBatchImageJob sampleStore 1 "white" "high" "infographic" "nanobanana" 0
        = Except.error CreateError.scriptNotFound
      ↔ sampleStore.scripts.find? (fun sc => sc.id == 1) = none) ∧
    (createBatchImageJob sampleStore 1 "white" "high" "infographic" "nanobanana" 0
        = Except.error CreateError.allChunksHaveImages
      ↔ ∀ c ∈ sampleScript.chunks, c.imageUrl.isSome = true) ∧
    ∃ jb st', createBatchImageJob sampleStore 1 "white" "high" "infographic" "nanobanana" 0
        = Except.ok (jb, st') ∧
      jb.status = JobStatus.pending ∧
      jb.chunksToProcess = (sampleScript.chunks.filter fun c => c.imageUrl.isNone).map
        (fun c => { chunkId := c.id, status := ItemStatus.pending }) ∧
      jb.progress.totalChunks
          = (sampleScript.chunks.filter fun c => c.imageUrl.isNone).length ∧
      jb.progress.processedChunks = 0 ∧
      jb.progress.failedChunks = 0 ∧
      st'.jobs = sampleStore.jobs ++ [jb] :=
  ⟨(claim_C8 sampleStore 1 "white" "high" "infographic" "nanobanana" 0).1,
   (claim_C8 sampleStore 1 "white" "high" "infographic" "nanobanana" 0).2.1 sampleScript
     (by rfl) (by rfl),
   (claim_C8 sampleStore 1 "white" "high" "infographic" "nanobanana" 0).2.2 sampleScript
     (by rfl) (by rfl) (by decide)⟩

end BatchEngine
